import Mathlib

/-!
Shallow embedding of the world subsystem of the voxel sandbox
(`src/world/block.rs`, `src/world/chunk.rs`, `src/renderer/renderer.rs`,
`src/renderer/texture.rs`).

Conventions of the embedding:
* machine floats (`f64` / `f32`) are modelled as exact rationals (`ℚ`);
* the external seeded Perlin noise source (`noise::Perlin`) is modelled as an
  abstract structure of sampling functions (`Noise`), since its output is an
  opaque deterministic function of the seed;
* `Vec<BlockType>` chunk storage is modelled as a total function from the flat
  index used by the source; all in-bounds reads/writes agree with the vector;
* `HashMap` / `HashSet` / the filesystem are modelled as an association list,
  a `Finset`, and an abstract `Disk` state threaded explicitly.
-/

namespace Mc

/-- `BlockType` from `src/world/block.rs`. -/
inductive BlockType where
  | Air | CaveAir | VoidAir
  | GrassBlock | Dirt | CoarseDirt | Podzol | Mycelium | RootedDirt | Mud | Clay
  | Sand | RedSand | Gravel | Stone | Granite | Diorite | Andesite | Deepslate
  | Calcite | Tuff | DripstoneBlock
  | CoalOre | DeepslateCoalOre | IronOre | DeepslateIronOre
  | CopperOre | DeepslateCopperOre | GoldOre | DeepslateGoldOre
  | RedstoneOre | DeepslateRedstoneOre | EmeraldOre | DeepslateEmeraldOre
  | LapisOre | DeepslateLapisOre | DiamondOre | DeepslateDiamondOre
  | Cobblestone | MossyCobblestone | StoneBricks | SmoothStone
  | Sandstone | RedSandstone | Bricks
  | OakLog | SpruceLog | BirchLog | JungleLog | AcaciaLog | DarkOakLog | OakLeaves
  | OakPlanks | SprucePlanks | BirchPlanks
  | Glass | WhiteStainedGlass
  | Netherrack | NetherBricks | SoulSand | Obsidian | Bedrock
  | Water | Lava
  | CraftingTable | Furnace | Chest
  deriving DecidableEq, Repr, Inhabited

/-- `BlockType::is_transparent` from `src/world/block.rs`. -/
def BlockType.is_transparent : BlockType → Bool
  | .Air | .CaveAir | .VoidAir | .Glass | .WhiteStainedGlass
  | .Water | .Lava | .OakLeaves => true
  | _ => false

/-- `BlockType::is_solid` from `src/world/block.rs`. -/
def BlockType.is_solid : BlockType → Bool
  | .Air | .CaveAir | .VoidAir | .Water => false
  | _ => true

/-- `BlockType::is_liquid` from `src/world/block.rs`. -/
def BlockType.is_liquid : BlockType → Bool
  | .Water | .Lava => true
  | _ => false

/-- `BlockType::get_color` from `src/world/block.rs` (floats as exact rationals). -/
def BlockType.get_color : BlockType → ℚ × ℚ × ℚ
  | .Air | .CaveAir | .VoidAir => (0, 0, 0)
  | .GrassBlock => (0.35, 0.65, 0.25)
  | .Dirt | .CoarseDirt => (0.55, 0.35, 0.2)
  | .Sand => (0.9, 0.85, 0.6)
  | .RedSand => (0.8, 0.5, 0.3)
  | .Stone => (0.5, 0.5, 0.5)
  | .Granite => (0.6, 0.4, 0.35)
  | .Diorite => (0.85, 0.85, 0.85)
  | .Andesite => (0.55, 0.55, 0.55)
  | .Deepslate => (0.3, 0.3, 0.35)
  | .CoalOre => (0.4, 0.4, 0.4)
  | .IronOre => (0.65, 0.6, 0.55)
  | .GoldOre => (0.9, 0.8, 0.3)
  | .DiamondOre => (0.4, 0.7, 0.8)
  | .EmeraldOre => (0.3, 0.8, 0.4)
  | .Cobblestone => (0.45, 0.45, 0.45)
  | .StoneBricks => (0.5, 0.5, 0.5)
  | .Sandstone => (0.85, 0.8, 0.6)
  | .RedSandstone => (0.75, 0.45, 0.3)
  | .Bricks => (0.6, 0.3, 0.2)
  | .OakLog => (0.4, 0.3, 0.2)
  | .SpruceLog => (0.3, 0.25, 0.2)
  | .BirchLog => (0.85, 0.85, 0.8)
  | .OakPlanks => (0.65, 0.5, 0.3)
  | .SprucePlanks => (0.45, 0.35, 0.25)
  | .BirchPlanks => (0.75, 0.7, 0.55)
  | .OakLeaves => (0.2, 0.6, 0.2)
  | .Glass => (0.85, 0.95, 1)
  | .WhiteStainedGlass => (0.95, 0.95, 1)
  | .Netherrack => (0.6, 0.25, 0.25)
  | .NetherBricks => (0.3, 0.15, 0.2)
  | .SoulSand => (0.35, 0.3, 0.25)
  | .Obsidian => (0.05, 0.05, 0.15)
  | .Bedrock => (0.2, 0.2, 0.2)
  | .Water => (0.1, 0.3, 0.8)
  | .Lava => (0.9, 0.4, 0.1)
  | .CraftingTable => (0.6, 0.45, 0.3)
  | .Furnace => (0.4, 0.4, 0.4)
  | .Chest => (0.55, 0.4, 0.25)
  | _ => (0.7, 0.7, 0.7)

/-- `CHUNK_SIZE` from `src/world/chunk.rs`. -/
def CHUNK_SIZE : Nat := 16

/-- `WORLD_HEIGHT` from `src/world/chunk.rs`. -/
def WORLD_HEIGHT : Nat := 256

/-- `Chunk` from `src/world/chunk.rs`. `blocks` models the dense
`Vec<BlockType>` of length `CHUNK_SIZE * WORLD_HEIGHT * CHUNK_SIZE` as a total
function from the flat index used by the source; every in-bounds access of the
source is an access of this function at the same index. -/
structure Chunk where
  x : Int
  z : Int
  blocks : Nat → BlockType

/-- `Chunk::new`. -/
def Chunk.new (x z : Int) : Chunk :=
  ⟨x, z, fun _ => BlockType.Air⟩

/-- `Chunk::get_block`: out-of-range reads return air. -/
def Chunk.get_block (c : Chunk) (x y z : Nat) : BlockType :=
  if CHUNK_SIZE ≤ x ∨ WORLD_HEIGHT ≤ y ∨ CHUNK_SIZE ≤ z then BlockType.Air
  else c.blocks (x + y * CHUNK_SIZE + z * CHUNK_SIZE * WORLD_HEIGHT)

/-- `Chunk::set_block`: out-of-range writes are a no-op. -/
def Chunk.set_block (c : Chunk) (x y z : Nat) (b : BlockType) : Chunk :=
  if CHUNK_SIZE ≤ x ∨ WORLD_HEIGHT ≤ y ∨ CHUNK_SIZE ≤ z then c
  else { c with blocks := fun i =>
    if i = x + y * CHUNK_SIZE + z * CHUNK_SIZE * WORLD_HEIGHT then b
    else c.blocks i }

theorem Chunk.set_block_x (c : Chunk) (x y z : Nat) (b : BlockType) :
    (c.set_block x y z b).x = c.x := by
  unfold Chunk.set_block; split <;> rfl

theorem Chunk.set_block_z (c : Chunk) (x y z : Nat) (b : BlockType) :
    (c.set_block x y z b).z = c.z := by
  unfold Chunk.set_block; split <;> rfl

theorem Chunk.get_block_new (cx cz : Int) (x y z : Nat) :
    (Chunk.new cx cz).get_block x y z = BlockType.Air := by
  unfold Chunk.get_block Chunk.new; split <;> rfl

theorem Chunk.get_block_of_out (c : Chunk) (x y z : Nat)
    (h : CHUNK_SIZE ≤ x ∨ WORLD_HEIGHT ≤ y ∨ CHUNK_SIZE ≤ z) :
    c.get_block x y z = BlockType.Air := by
  unfold Chunk.get_block; rw [if_pos h]

theorem Chunk.get_block_of_in (c : Chunk) (x y z : Nat)
    (h : ¬(CHUNK_SIZE ≤ x ∨ WORLD_HEIGHT ≤ y ∨ CHUNK_SIZE ≤ z)) :
    c.get_block x y z = c.blocks (x + y * CHUNK_SIZE + z * CHUNK_SIZE * WORLD_HEIGHT) := by
  unfold Chunk.get_block; rw [if_neg h]

theorem Chunk.set_block_of_out (c : Chunk) (x y z : Nat) (b : BlockType)
    (h : CHUNK_SIZE ≤ x ∨ WORLD_HEIGHT ≤ y ∨ CHUNK_SIZE ≤ z) :
    c.set_block x y z b = c := by
  unfold Chunk.set_block; rw [if_pos h]

theorem Chunk.set_block_of_in (c : Chunk) (x y z : Nat) (b : BlockType)
    (h : ¬(CHUNK_SIZE ≤ x ∨ WORLD_HEIGHT ≤ y ∨ CHUNK_SIZE ≤ z)) :
    c.set_block x y z b = { c with blocks := (fun i =>
      if i = x + y * CHUNK_SIZE + z * CHUNK_SIZE * WORLD_HEIGHT then b
      else c.blocks i) } := by
  unfold Chunk.set_block; rw [if_neg h]

/-- Reading after writing: the write is observable exactly when the written
triple equals the read triple and is in range; the flat index
`x + y*16 + z*16*256` is injective on in-range triples. -/
theorem Chunk.get_block_set_block (c : Chunk) (x y z x' y' z' : Nat) (b : BlockType) :
    (c.set_block x' y' z' b).get_block x y z =
      if x = x' ∧ y = y' ∧ z = z' ∧ x < CHUNK_SIZE ∧ y < WORLD_HEIGHT ∧ z < CHUNK_SIZE then b
      else c.get_block x y z := by
  simp only [CHUNK_SIZE, WORLD_HEIGHT]
  by_cases hw : 16 ≤ x' ∨ 256 ≤ y' ∨ 16 ≤ z'
  · rw [Chunk.set_block_of_out c x' y' z' b (by simpa [CHUNK_SIZE, WORLD_HEIGHT] using hw),
      if_neg (by omega)]
  · rw [Chunk.set_block_of_in c x' y' z' b (by simpa [CHUNK_SIZE, WORLD_HEIGHT] using hw)]
    by_cases hq : 16 ≤ x ∨ 256 ≤ y ∨ 16 ≤ z
    · rw [Chunk.get_block_of_out _ x y z (by simpa [CHUNK_SIZE, WORLD_HEIGHT] using hq),
        if_neg (by omega),
        Chunk.get_block_of_out c x y z (by simpa [CHUNK_SIZE, WORLD_HEIGHT] using hq)]
    · rw [Chunk.get_block_of_in _ x y z (by simpa [CHUNK_SIZE, WORLD_HEIGHT] using hq),
        Chunk.get_block_of_in c x y z (by simpa [CHUNK_SIZE, WORLD_HEIGHT] using hq)]
      dsimp only
      simp only [CHUNK_SIZE, WORLD_HEIGHT]
      by_cases he : x = x' ∧ y = y' ∧ z = z'
      · obtain ⟨h1, h2, h3⟩ := he
        subst h1; subst h2; subst h3
        rw [if_pos rfl, if_pos (by omega)]
      · rw [if_neg (by omega), if_neg (by omega)]

/--
C8: `Chunk::get_block` with any coordinate outside
`[0,16) × [0,256) × [0,16)` returns air, `Chunk::set_block` with such a
coordinate leaves the chunk unchanged, and for in-range coordinates the flat
index `x + y*CHUNK_SIZE + z*CHUNK_SIZE*WORLD_HEIGHT` is strictly below the
length of the block vector, so the vector access is always in bounds and
neither operation can panic.
-/
theorem C8_chunk_bounds (c : Chunk) (x y z : Nat) (b : BlockType) :
    (CHUNK_SIZE ≤ x ∨ WORLD_HEIGHT ≤ y ∨ CHUNK_SIZE ≤ z →
      c.get_block x y z = BlockType.Air ∧ c.set_block x y z b = c) ∧
    (x < CHUNK_SIZE → y < WORLD_HEIGHT → z < CHUNK_SIZE →
      x + y * CHUNK_SIZE + z * CHUNK_SIZE * WORLD_HEIGHT <
        CHUNK_SIZE * WORLD_HEIGHT * CHUNK_SIZE) := by
  constructor
  · intro h
    constructor
    · unfold Chunk.get_block; rw [if_pos h]
    · unfold Chunk.set_block; rw [if_pos h]
  · intro hx hy hz
    simp only [CHUNK_SIZE, WORLD_HEIGHT] at *
    omega

theorem C8_chunk_bounds_witness :
    ((Chunk.new 0 0).get_block 16 0 0 = BlockType.Air ∧
      (Chunk.new 0 0).set_block 16 0 0 BlockType.Stone = Chunk.new 0 0) ∧
    0 + 0 * CHUNK_SIZE + 0 * CHUNK_SIZE * WORLD_HEIGHT <
      CHUNK_SIZE * WORLD_HEIGHT * CHUNK_SIZE :=
  ⟨(C8_chunk_bounds (Chunk.new 0 0) 16 0 0 BlockType.Stone).1
      (Or.inl (by decide)),
    (C8_chunk_bounds (Chunk.new 0 0) 0 0 0 BlockType.Stone).2
      (by decide) (by decide) (by decide)⟩

/-- Abstract model of the external seeded Perlin noise source
(`noise::Perlin`): a deterministic pair of 2-D and 3-D sampling functions,
one such structure per seed.  This is the "noise primitive" external
interface; its concrete values are opaque. -/
structure Noise where
  get2 : ℚ → ℚ → ℚ
  get3 : ℚ → ℚ → ℚ → ℚ

/-- `World::sample_noise` (`src/world/chunk.rs` lines 248-262).  The loop
state is `(value, amplitude, frequency, max_value)`. -/
def sample_noise (noise : Noise) (x z : ℚ) (octaves : Nat) (persistence scale : ℚ) : ℚ :=
  let st := (List.range octaves).foldl
    (fun (st : ℚ × ℚ × ℚ × ℚ) _ =>
      (st.1 + noise.get2 (x * st.2.2.1) (z * st.2.2.1) * st.2.1,
        st.2.1 * persistence, st.2.2.1 * 2, st.2.2.2 + st.2.1))
    (0, 1, scale, 0)
  (st.1 / st.2.2.2 + 1) / 2

/-- The height-map entry of `World::generate_chunk` for one column
(`src/world/chunk.rs` lines 120-132): base terrain plus hills minus valleys,
clamped to `[1, WORLD_HEIGHT - 1]` and truncated to an integer (`as usize`). -/
def height_at (noise : Noise) (world_x world_z : Int) : Nat :=
  let base_height := 40 + sample_noise noise world_x world_z 6 0.5 0.005 * 80
  let hill_noise := sample_noise noise world_x world_z 3 0.7 0.02 * 20
  let valley_noise := sample_noise noise world_x world_z 2 0.8 0.01 * 15
  (Int.floor (min (max (base_height + hill_noise - valley_noise) 1) ((WORLD_HEIGHT : ℚ) - 1))).toNat

/-- The per-voxel block rule of `World::generate_chunk`
(`src/world/chunk.rs` lines 142-169) as a function of the column height and
`y`; Rust's `height.saturating_sub(k)` is `Nat` subtraction. -/
def terrain_block (height y : Nat) : BlockType :=
  if y = 0 then BlockType.Bedrock
  else if y < height - 3 then
    if y < 16 then BlockType.Deepslate else BlockType.Stone
  else if y < height - 1 then BlockType.Dirt
  else if y < height then
    if 90 < height then BlockType.Stone
    else if height < 65 then BlockType.Sand
    else BlockType.GrassBlock
  else if y < 63 then BlockType.Water
  else BlockType.Air

/-- One iteration body of the ore loop in `World::generate_ores`
(`src/world/chunk.rs` lines 189-244): the 3-D noise sample and the nested
`if` / `else if` threshold chain, returning the ore placed at height `y`
(if any). -/
def ore_block (noise : Noise) (world_x world_z : Int) (y : Nat) : Option BlockType :=
  let ore_noise := noise.get3 ((world_x : ℚ) * 0.1) ((y : ℚ) * 0.1) ((world_z : ℚ) * 0.1)
  if 0.6 < ore_noise ∧ 0 < y ∧ y < 128 then
    some (if y < 16 then BlockType.DeepslateCoalOre else BlockType.CoalOre)
  else if 0.7 < ore_noise ∧ 0 < y ∧ y < 64 then
    some (if y < 16 then BlockType.DeepslateIronOre else BlockType.IronOre)
  else if 0.75 < ore_noise ∧ 0 < y ∧ y < 32 then
    some (if y < 16 then BlockType.DeepslateGoldOre else BlockType.GoldOre)
  else if 0.8 < ore_noise ∧ 1 < y ∧ y < 20 then
    some (if y < 16 then BlockType.DeepslateDiamondOre else BlockType.DiamondOre)
  else none

/-- `World::generate_ores` (`src/world/chunk.rs` lines 182-246): the loop
`for y in 1..surface_height.min(WORLD_HEIGHT - 1)` over one column. -/
def generate_ores (noise : Noise) (chunk : Chunk) (x z : Nat) (surface_height : Nat) : Chunk :=
  let world_x := chunk.x * (CHUNK_SIZE : Int) + x
  let world_z := chunk.z * (CHUNK_SIZE : Int) + z
  (List.range' 1 (min surface_height (WORLD_HEIGHT - 1) - 1)).foldl
    (fun c y =>
      match ore_block noise world_x world_z y with
      | some b => c.set_block x y z b
      | none => c)
    chunk

/-- One `(x, z)` column of `World::generate_chunk`: the `for y in
0..WORLD_HEIGHT` fill loop (lines 141-172) followed by the ore pass
(line 175). -/
def generate_column (noise : Noise) (chunk : Chunk) (x z height : Nat) : Chunk :=
  let chunk := (List.range WORLD_HEIGHT).foldl
    (fun c y => c.set_block x y z (terrain_block height y)) chunk
  generate_ores noise chunk x z height

/-- `World::generate_chunk` (`src/world/chunk.rs` lines 108-180).  The source
precomputes the height map before the block loops; since the height of a
column is a pure function of the world coordinates, computing it at the head
of each column iteration is identical. -/
def generate_chunk (noise : Noise) (chunk_x chunk_z : Int) : Chunk :=
  let chunk_world_x := chunk_x * (CHUNK_SIZE : Int)
  let chunk_world_z := chunk_z * (CHUNK_SIZE : Int)
  (List.range CHUNK_SIZE).foldl
    (fun c x =>
      (List.range CHUNK_SIZE).foldl
        (fun c z =>
          generate_column noise c x z
            (height_at noise (chunk_world_x + x) (chunk_world_z + z)))
        c)
    (Chunk.new chunk_x chunk_z)

/-- Abstract model of the filesystem under the storage root:
`files` is the decodable chunk file found at the path for a coordinate
(`none` uniformly for a missing or corrupt file), and `write_fails`
says whether writing the file for a coordinate fails. -/
structure Disk where
  files : Int × Int → Option Chunk
  write_fails : Int × Int → Bool

/-- Association-list model of `HashMap<(i32, i32), Chunk>`: first binding
wins. -/
def mapFind (m : List ((Int × Int) × Chunk)) (k : Int × Int) : Option Chunk :=
  match m with
  | [] => none
  | (k', c) :: rest => if k' = k then some c else mapFind rest k

/-- `HashMap::insert` on an existing key: replace the first binding. -/
def mapSet (m : List ((Int × Int) × Chunk)) (k : Int × Int) (c : Chunk) :
    List ((Int × Int) × Chunk) :=
  match m with
  | [] => []
  | (k', c') :: rest => if k' = k then (k, c) :: rest else (k', c') :: mapSet rest k c

/-- `HashSet::insert` on the set-as-list model of `HashSet<(i32, i32)>`:
adding an element already present leaves the set unchanged. -/
def setInsert (s : List (Int × Int)) (k : Int × Int) : List (Int × Int) :=
  if k ∈ s then s else k :: s

/-- `World` from `src/world/chunk.rs`: the chunk cache, the seeded noise
source, the optional storage root and the dirty set.  The seed itself only
parameterizes `noise` and is otherwise unused by the modelled operations. -/
structure World where
  chunks : List ((Int × Int) × Chunk)
  noise : Noise
  world_dir : Option String
  dirty_chunks : List (Int × Int)

/-- `World::load_chunk_from_disk` (lines 368-372): `None` without a storage
root; otherwise the (decoded) file contents, with missing and corrupt files
both `none`. -/
def load_chunk_from_disk (w : World) (d : Disk) (chunk_x chunk_z : Int) : Option Chunk :=
  match w.world_dir with
  | none => none
  | some _ => d.files (chunk_x, chunk_z)

/-- `World::get_chunk` / `World::get_chunk_mut` (lines 80-106): if absent,
load from disk or else generate and mark dirty, then insert into the cache.
Returns the chunk together with the updated world. -/
def World.get_chunk (w : World) (d : Disk) (chunk_x chunk_z : Int) : Chunk × World :=
  match mapFind w.chunks (chunk_x, chunk_z) with
  | some c => (c, w)
  | none =>
    match load_chunk_from_disk w d chunk_x chunk_z with
    | some c =>
      (c, { w with chunks := ((chunk_x, chunk_z), c) :: w.chunks })
    | none =>
      let generated := generate_chunk w.noise chunk_x chunk_z
      (generated,
        { w with
          chunks := ((chunk_x, chunk_z), generated) :: w.chunks,
          dirty_chunks := setInsert w.dirty_chunks (chunk_x, chunk_z) })

/-- `World::get_loaded_chunks`. -/
def World.get_loaded_chunks (w : World) : List (Int × Int) :=
  w.chunks.map Prod.fst

/-- `World::is_chunk_loaded`. -/
def World.is_chunk_loaded (w : World) (chunk_x chunk_z : Int) : Bool :=
  (mapFind w.chunks (chunk_x, chunk_z)).isSome

/-- `World::has_dirty_chunks`: `!self.dirty_chunks.is_empty()`. -/
def World.has_dirty_chunks (w : World) : Bool :=
  !w.dirty_chunks.isEmpty

/-- `World::split_world_coord` (lines 315-320): `div_euclid` /
`rem_euclid` by `CHUNK_SIZE`. -/
def split_world_coord (coord : Int) : Int × Nat :=
  (coord.ediv (CHUNK_SIZE : Int), (coord.emod (CHUNK_SIZE : Int)).toNat)

/-- `World::get_block_at` (lines 322-331). -/
def World.get_block_at (w : World) (d : Disk) (world_x world_y world_z : Int) :
    BlockType × World :=
  if world_y < 0 ∨ (WORLD_HEIGHT : Int) ≤ world_y then (BlockType.Air, w)
  else
    let cl_x := split_world_coord world_x
    let cl_z := split_world_coord world_z
    let cw := w.get_chunk d cl_x.1 cl_z.1
    (cw.1.get_block cl_x.2 world_y.toNat cl_z.2, cw.2)

/-- `World::set_block_at` (lines 333-354). -/
def World.set_block_at (w : World) (d : Disk) (world_x world_y world_z : Int)
    (block : BlockType) : Option (Int × Int) × World :=
  if world_y < 0 ∨ (WORLD_HEIGHT : Int) ≤ world_y then (none, w)
  else
    let cl_x := split_world_coord world_x
    let cl_z := split_world_coord world_z
    let cw := w.get_chunk d cl_x.1 cl_z.1
    let current := cw.1.get_block cl_x.2 world_y.toNat cl_z.2
    if current = block then (none, cw.2)
    else
      (some (cl_x.1, cl_z.1),
        { cw.2 with
          chunks := mapSet cw.2.chunks (cl_x.1, cl_z.1)
            (cw.1.set_block cl_x.2 world_y.toNat cl_z.2 block),
          dirty_chunks := setInsert cw.2.dirty_chunks (cl_x.1, cl_z.1) })

/-- `World::save_chunk_to_disk` (lines 374-384): `Ok` without writing when
there is no storage root; otherwise write the chunk file (which may fail,
modelled by `Disk.write_fails`).  `none` models the `Err` case. -/
def save_chunk_to_disk (w : World) (d : Disk) (chunk : Chunk) : Option Disk :=
  match w.world_dir with
  | none => some d
  | some _ =>
    if d.write_fails (chunk.x, chunk.z) then none
    else some { d with files := fun k =>
      if k = (chunk.x, chunk.z) then some chunk else d.files k }

/-- `World::save_dirty_chunks` (lines 290-313): return early when nothing is
dirty; with no storage root just clear the dirty set; otherwise drain the
dirty set and save each still-resident chunk, re-inserting coordinates whose
save failed. -/
def World.save_dirty_chunks (w : World) (d : Disk) : World × Disk :=
  if w.dirty_chunks = [] then (w, d)
  else if w.world_dir = none then ({ w with dirty_chunks := [] }, d)
  else
    let to_save := w.dirty_chunks
    to_save.foldl
      (fun (st : World × Disk) cc =>
        match mapFind st.1.chunks cc with
        | none => st
        | some chunk =>
          match save_chunk_to_disk st.1 st.2 chunk with
          | some d' => (st.1, d')
          | none => ({ st.1 with dirty_chunks := setInsert st.1.dirty_chunks cc }, st.2))
      ({ w with dirty_chunks := [] }, d)

theorem foldl_preserves_x {α : Type} (l : List α) (c : Chunk) (step : Chunk → α → Chunk)
    (hs : ∀ c a, (step c a).x = c.x) : (l.foldl step c).x = c.x := by
  induction l generalizing c with
  | nil => rfl
  | cons a t ih => rw [List.foldl_cons, ih (step c a), hs]

theorem foldl_preserves_z {α : Type} (l : List α) (c : Chunk) (step : Chunk → α → Chunk)
    (hs : ∀ c a, (step c a).z = c.z) : (l.foldl step c).z = c.z := by
  induction l generalizing c with
  | nil => rfl
  | cons a t ih => rw [List.foldl_cons, ih (step c a), hs]

/-- Reading a chunk after a column-fill loop: within the written column the
last (only) write for the queried height wins; outside it the chunk is
untouched. -/
theorem get_block_foldl_fill (l : List Nat) (c : Chunk) (x z qx qy qz : Nat)
    (f : Nat → BlockType) :
    (l.foldl (fun ch y => ch.set_block x y z (f y)) c).get_block qx qy qz =
      if qx = x ∧ qz = z ∧ qy ∈ l ∧ qx < CHUNK_SIZE ∧ qy < WORLD_HEIGHT ∧ qz < CHUNK_SIZE
      then f qy
      else c.get_block qx qy qz := by
  induction l generalizing c with
  | nil => simp
  | cons a t ih =>
    rw [List.foldl_cons, ih, Chunk.get_block_set_block]
    by_cases hm : qx = x ∧ qz = z ∧ qy ∈ a :: t ∧
        qx < CHUNK_SIZE ∧ qy < WORLD_HEIGHT ∧ qz < CHUNK_SIZE
    · rw [if_pos hm]
      obtain ⟨h1, h2, h3, h4, h5, h6⟩ := hm
      rcases List.mem_cons.mp h3 with h7 | h7
      · by_cases h8 : qy ∈ t
        · rw [if_pos ⟨h1, h2, h8, h4, h5, h6⟩]
        · rw [if_neg (fun hc => h8 hc.2.2.1), if_pos ⟨h1, h7, h2, h4, h5, h6⟩, h7]
      · rw [if_pos ⟨h1, h2, h7, h4, h5, h6⟩]
    · rw [if_neg hm,
        if_neg (fun hc => hm ⟨hc.1, hc.2.1, List.mem_cons_of_mem a hc.2.2.1, hc.2.2.2⟩),
        if_neg (fun hc => hm ⟨hc.1, hc.2.2.1,
          by rw [hc.2.1]; exact List.mem_cons_self a t,
          hc.2.2.2.1, hc.2.2.2.2⟩)]

/-- Reading a chunk after a conditional-write loop over a column (the shape
of the ore pass): the written value only depends on the height, so the last
write for the queried height wins. -/
theorem get_block_foldl_ore (l : List Nat) (c : Chunk) (x z qx qy qz : Nat)
    (g : Nat → Option BlockType) :
    (l.foldl (fun ch y =>
        match g y with
        | some b => ch.set_block x y z b
        | none => ch) c).get_block qx qy qz =
      if qx = x ∧ qz = z ∧ qy ∈ l ∧ qx < CHUNK_SIZE ∧ qy < WORLD_HEIGHT ∧ qz < CHUNK_SIZE
      then
        match g qy with
        | some b => b
        | none => c.get_block qx qy qz
      else c.get_block qx qy qz := by
  induction l generalizing c with
  | nil => simp
  | cons a t ih =>
    rw [List.foldl_cons]
    cases hg : g a with
    | some b =>
      simp only [hg]
      rw [ih]
      simp only [Chunk.get_block_set_block]
      cases hgq : g qy with
      | some bq =>
        simp only [hgq]
        by_cases hm : qx = x ∧ qz = z ∧ qy ∈ a :: t ∧
            qx < CHUNK_SIZE ∧ qy < WORLD_HEIGHT ∧ qz < CHUNK_SIZE
        · rw [if_pos hm]
          obtain ⟨h1, h2, h3, h4, h5, h6⟩ := hm
          rcases List.mem_cons.mp h3 with h7 | h7
          · by_cases h8 : qy ∈ t
            · rw [if_pos ⟨h1, h2, h8, h4, h5, h6⟩]
            · rw [if_neg (fun hc => h8 hc.2.2.1), if_pos ⟨h1, h7, h2, h4, h5, h6⟩]
              rw [h7, hg] at hgq
              exact Option.some.inj hgq
          · rw [if_pos ⟨h1, h2, h7, h4, h5, h6⟩]
        · rw [if_neg hm,
            if_neg (fun hc => hm ⟨hc.1, hc.2.1, List.mem_cons_of_mem a hc.2.2.1, hc.2.2.2⟩),
            if_neg (fun hc => hm ⟨hc.1, hc.2.2.1,
              by rw [hc.2.1]; exact List.mem_cons_self a t,
              hc.2.2.2.1, hc.2.2.2.2⟩)]
      | none =>
        simp only [hgq]
        have hset : ¬(qx = x ∧ qy = a ∧ qz = z ∧
            qx < CHUNK_SIZE ∧ qy < WORLD_HEIGHT ∧ qz < CHUNK_SIZE) := by
          intro hc
          rw [hc.2.1, hg] at hgq
          exact Option.noConfusion hgq
        rw [if_neg hset]
        by_cases hm : qx = x ∧ qz = z ∧ qy ∈ a :: t ∧
            qx < CHUNK_SIZE ∧ qy < WORLD_HEIGHT ∧ qz < CHUNK_SIZE
        · rw [if_pos hm]
          obtain ⟨h1, h2, h3, h4, h5, h6⟩ := hm
          rcases List.mem_cons.mp h3 with h7 | h7
          · exfalso
            rw [h7, hg] at hgq
            exact Option.noConfusion hgq
          · rw [if_pos ⟨h1, h2, h7, h4, h5, h6⟩]
        · rw [if_neg hm,
            if_neg (fun hc => hm ⟨hc.1, hc.2.1, List.mem_cons_of_mem a hc.2.2.1, hc.2.2.2⟩)]
    | none =>
      simp only [hg]
      rw [ih]
      cases hgq : g qy with
      | some bq =>
        simp only [hgq]
        by_cases hm : qx = x ∧ qz = z ∧ qy ∈ a :: t ∧
            qx < CHUNK_SIZE ∧ qy < WORLD_HEIGHT ∧ qz < CHUNK_SIZE
        · rw [if_pos hm]
          obtain ⟨h1, h2, h3, h4, h5, h6⟩ := hm
          rcases List.mem_cons.mp h3 with h7 | h7
          · exfalso
            rw [h7, hg] at hgq
            exact Option.noConfusion hgq
          · rw [if_pos ⟨h1, h2, h7, h4, h5, h6⟩]
        · rw [if_neg hm,
            if_neg (fun hc => hm ⟨hc.1, hc.2.1, List.mem_cons_of_mem a hc.2.2.1, hc.2.2.2⟩)]
      | none =>
        simp only [hgq]
        rw [ite_self, ite_self]

theorem generate_ores_x (noise : Noise) (c : Chunk) (x z h : Nat) :
    (generate_ores noise c x z h).x = c.x := by
  unfold generate_ores
  exact foldl_preserves_x _ _ _ (fun c' y => by
    cases ore_block noise (c.x * (CHUNK_SIZE : Int) + x) (c.z * (CHUNK_SIZE : Int) + z) y <;>
      simp [Chunk.set_block_x])

theorem generate_ores_z (noise : Noise) (c : Chunk) (x z h : Nat) :
    (generate_ores noise c x z h).z = c.z := by
  unfold generate_ores
  exact foldl_preserves_z _ _ _ (fun c' y => by
    cases ore_block noise (c.x * (CHUNK_SIZE : Int) + x) (c.z * (CHUNK_SIZE : Int) + z) y <;>
      simp [Chunk.set_block_z])

/-- Characterization of the ore pass: it only modifies column `(x, z)`, at
heights in `[1, min surface_height (WORLD_HEIGHT - 1))`, replacing the block
by the ore chosen by `ore_block` when there is one. -/
theorem get_block_generate_ores (noise : Noise) (c : Chunk) (x z h qx qy qz : Nat) :
    (generate_ores noise c x z h).get_block qx qy qz =
      if qx = x ∧ qz = z ∧ qy ∈ List.range' 1 (min h (WORLD_HEIGHT - 1) - 1) ∧
          qx < CHUNK_SIZE ∧ qy < WORLD_HEIGHT ∧ qz < CHUNK_SIZE then
        match ore_block noise (c.x * (CHUNK_SIZE : Int) + x) (c.z * (CHUNK_SIZE : Int) + z) qy with
        | some b => b
        | none => c.get_block qx qy qz
      else c.get_block qx qy qz := by
  unfold generate_ores
  exact get_block_foldl_ore _ _ _ _ _ _ _ _

/-- The block found in a generated column at height `y`, for a column with
chunk-space coordinates `(cx, cz)`, local offsets `(x, z)` and the given
height value: the terrain rule, overwritten by the ore pass where it fires. -/
def column_block (noise : Noise) (cx cz : Int) (x z height y : Nat) : BlockType :=
  match (if y ∈ List.range' 1 (min height (WORLD_HEIGHT - 1) - 1) then
      ore_block noise (cx * (CHUNK_SIZE : Int) + x) (cz * (CHUNK_SIZE : Int) + z) y
    else none) with
  | some b => b
  | none => terrain_block height y

theorem generate_column_x (noise : Noise) (c : Chunk) (x z h : Nat) :
    (generate_column noise c x z h).x = c.x := by
  unfold generate_column
  rw [generate_ores_x]
  exact foldl_preserves_x _ _ _ (fun c y => Chunk.set_block_x c x y z _)

theorem generate_column_z (noise : Noise) (c : Chunk) (x z h : Nat) :
    (generate_column noise c x z h).z = c.z := by
  unfold generate_column
  rw [generate_ores_z]
  exact foldl_preserves_z _ _ _ (fun c y => Chunk.set_block_z c x y z _)

/-- Characterization of one generated column: inside the column the result is
`column_block`; outside it the chunk is untouched. -/
theorem get_block_generate_column (noise : Noise) (c : Chunk) (x z h qx qy qz : Nat)
    (hqx : qx < CHUNK_SIZE) (hqy : qy < WORLD_HEIGHT) (hqz : qz < CHUNK_SIZE) :
    (generate_column noise c x z h).get_block qx qy qz =
      if qx = x ∧ qz = z then column_block noise c.x c.z x z h qy
      else c.get_block qx qy qz := by
  have key : generate_column noise c x z h =
      generate_ores noise
        ((List.range WORLD_HEIGHT).foldl
          (fun ch y => ch.set_block x y z (terrain_block h y)) c) x z h := rfl
  have hx' : ((List.range WORLD_HEIGHT).foldl
      (fun ch y => ch.set_block x y z (terrain_block h y)) c).x = c.x :=
    foldl_preserves_x _ _ _ (fun c' y => Chunk.set_block_x c' x y z _)
  have hz' : ((List.range WORLD_HEIGHT).foldl
      (fun ch y => ch.set_block x y z (terrain_block h y)) c).z = c.z :=
    foldl_preserves_z _ _ _ (fun c' y => Chunk.set_block_z c' x y z _)
  rw [key, get_block_generate_ores, hx', hz', get_block_foldl_fill]
  unfold column_block
  by_cases hc : qx = x ∧ qz = z
  · rw [if_pos hc]
    obtain ⟨h1, h2⟩ := hc
    subst h1; subst h2
    have hmem : qy ∈ List.range WORLD_HEIGHT := List.mem_range.mpr hqy
    by_cases hr : qy ∈ List.range' 1 (min h (WORLD_HEIGHT - 1) - 1)
    · rw [if_pos ⟨rfl, rfl, hr, hqx, hqy, hqz⟩, if_pos hr,
        if_pos ⟨rfl, rfl, hmem, hqx, hqy, hqz⟩]
    · rw [if_neg (fun hcon => hr hcon.2.2.1), if_neg hr,
        if_pos ⟨rfl, rfl, hmem, hqx, hqy, hqz⟩]
  · rw [if_neg (fun hcon => hc ⟨hcon.1, hcon.2.1⟩), if_neg hc,
      if_neg (fun hcon => hc ⟨hcon.1, hcon.2.1⟩)]

/-- Folding generated columns along `z` at fixed `x`. -/
theorem get_block_foldl_columns_z (noise : Noise) (x : Nat) (hs : Nat → Nat) (l : List Nat)
    (c : Chunk) (qx qy qz : Nat)
    (hqx : qx < CHUNK_SIZE) (hqy : qy < WORLD_HEIGHT) (hqz : qz < CHUNK_SIZE) :
    ((l.foldl (fun ch zz => generate_column noise ch x zz (hs zz)) c).get_block qx qy qz) =
      if qx = x ∧ qz ∈ l then column_block noise c.x c.z x qz (hs qz) qy
      else c.get_block qx qy qz := by
  induction l generalizing c with
  | nil => simp
  | cons a t ih =>
    rw [List.foldl_cons, ih (generate_column noise c x a (hs a)),
      generate_column_x, generate_column_z,
      get_block_generate_column _ _ _ _ _ _ _ _ hqx hqy hqz]
    by_cases hm : qx = x ∧ qz ∈ a :: t
    · rw [if_pos hm]
      rcases List.mem_cons.mp hm.2 with h7 | h7
      · by_cases h8 : qz ∈ t
        · rw [if_pos ⟨hm.1, h8⟩]
        · rw [if_neg (fun hc => h8 hc.2), if_pos ⟨hm.1, h7⟩, h7]
      · rw [if_pos ⟨hm.1, h7⟩]
    · rw [if_neg hm,
        if_neg (fun hc => hm ⟨hc.1, List.mem_cons_of_mem a hc.2⟩),
        if_neg (fun hc => hm ⟨hc.1, by rw [hc.2]; exact List.mem_cons_self a t⟩)]

/-- Folding generated columns along `x`. -/
theorem get_block_foldl_columns_x (noise : Noise) (hs : Nat → Nat → Nat) (l : List Nat)
    (c : Chunk) (qx qy qz : Nat)
    (hqx : qx < CHUNK_SIZE) (hqy : qy < WORLD_HEIGHT) (hqz : qz < CHUNK_SIZE) :
    ((l.foldl (fun ch xx => (List.range CHUNK_SIZE).foldl
        (fun ch2 zz => generate_column noise ch2 xx zz (hs xx zz)) ch) c).get_block qx qy qz) =
      if qx ∈ l then column_block noise c.x c.z qx qz (hs qx qz) qy
      else c.get_block qx qy qz := by
  induction l generalizing c with
  | nil => simp
  | cons a t ih =>
    have hxp : ∀ (ch : Chunk) (xx : Nat),
        ((List.range CHUNK_SIZE).foldl
          (fun ch2 zz => generate_column noise ch2 xx zz (hs xx zz)) ch).x = ch.x :=
      fun ch xx => foldl_preserves_x _ _ _ (fun c' zz => generate_column_x noise c' xx zz _)
    have hzp : ∀ (ch : Chunk) (xx : Nat),
        ((List.range CHUNK_SIZE).foldl
          (fun ch2 zz => generate_column noise ch2 xx zz (hs xx zz)) ch).z = ch.z :=
      fun ch xx => foldl_preserves_z _ _ _ (fun c' zz => generate_column_z noise c' xx zz _)
    rw [List.foldl_cons, ih, hxp, hzp,
      get_block_foldl_columns_z noise a (hs a) _ _ _ _ _ hqx hqy hqz]
    have hzmem : qz ∈ List.range CHUNK_SIZE := List.mem_range.mpr hqz
    by_cases hm : qx ∈ a :: t
    · rw [if_pos hm]
      rcases List.mem_cons.mp hm with h7 | h7
      · by_cases h8 : qx ∈ t
        · rw [if_pos h8]
        · rw [if_neg h8, if_pos ⟨h7, hzmem⟩, h7]
      · rw [if_pos h7]
    · rw [if_neg hm,
        if_neg (fun hc => hm (List.mem_cons_of_mem a hc)),
        if_neg (fun hc => hm (by rw [hc.1]; exact List.mem_cons_self a t))]

/-- The block that generation produces at local position `(x, y, z)` of chunk
`(chunk_x, chunk_z)`: the closed form of `generate_chunk`. -/
def expected_block (noise : Noise) (chunk_x chunk_z : Int) (x y z : Nat) : BlockType :=
  column_block noise chunk_x chunk_z x z
    (height_at noise (chunk_x * (CHUNK_SIZE : Int) + x) (chunk_z * (CHUNK_SIZE : Int) + z)) y

/-- Full characterization of `World::generate_chunk` at in-range local
coordinates. -/
theorem generate_chunk_get_block (noise : Noise) (chunk_x chunk_z : Int) (x y z : Nat)
    (hx : x < CHUNK_SIZE) (hy : y < WORLD_HEIGHT) (hz : z < CHUNK_SIZE) :
    (generate_chunk noise chunk_x chunk_z).get_block x y z =
      expected_block noise chunk_x chunk_z x y z := by
  unfold generate_chunk
  rw [get_block_foldl_columns_x noise _ _ _ _ _ _ hx hy hz,
    if_pos (by simpa [List.mem_range] using hx)]
  rfl

/-- A concrete noise source whose samples are all `0`, used to instantiate
universally quantified theorems. -/
def constNoise : Noise := ⟨fun _ _ => 0, fun _ _ _ => 0⟩

/-- A fresh world without a storage root (as created by
`World::new(None, seed)` after construction). -/
def testWorld : World :=
  { chunks := [], noise := constNoise, world_dir := none, dirty_chunks := [] }

/-- An empty storage state: no chunk file exists and writes succeed. -/
def testDisk : Disk := { files := fun _ => none, write_fails := fun _ => false }

theorem mem_setInsert (s : List (Int × Int)) (k : Int × Int) : k ∈ setInsert s k := by
  unfold setInsert; split
  · assumption
  · exact List.mem_cons_self k s

theorem isEmpty_setInsert (s : List (Int × Int)) (k : Int × Int) :
    (setInsert s k).isEmpty = false := by
  unfold setInsert; split
  · cases s with
    | nil => simp_all
    | cons a t => rfl
  · rfl

/--
C1: terrain generation is deterministic.  `generate_chunk` is a pure function
of the world's noise source (the seed) and the chunk coordinate: any two
worlds built over the same noise source — in particular the same world on two
invocations — produce equal chunks, hence bit-identical voxel content at
every local position.
-/
theorem C1_generate_chunk_deterministic (w1 w2 : World) (chunk_x chunk_z : Int)
    (h : w1.noise = w2.noise) :
    generate_chunk w1.noise chunk_x chunk_z = generate_chunk w2.noise chunk_x chunk_z := by
  rw [h]

theorem C1_generate_chunk_deterministic_witness :
    generate_chunk testWorld.noise 0 0 = generate_chunk testWorld.noise 0 0 :=
  C1_generate_chunk_deterministic testWorld testWorld 0 0 rfl

/--
C2: `World::split_world_coord` returns the floor division of the world
coordinate by the chunk width 16 together with the Euclidean remainder; the
local coordinate is always below 16 (and non-negative by its type), and world
coordinate `-1` maps to chunk `-1`, local `15`.
-/
theorem C2_split_world_coord (coord : Int) :
    (split_world_coord coord).1 = Int.fdiv coord (CHUNK_SIZE : Int) ∧
    ((split_world_coord coord).2 : Int) = Int.emod coord (CHUNK_SIZE : Int) ∧
    (split_world_coord coord).2 < CHUNK_SIZE ∧
    split_world_coord (-1) = (-1, 15) := by
  have h0 : (0 : Int) ≤ coord.emod (CHUNK_SIZE : Int) :=
    Int.emod_nonneg coord (by simp [CHUNK_SIZE])
  have h16 : coord.emod (CHUNK_SIZE : Int) < (CHUNK_SIZE : Int) :=
    Int.emod_lt_of_pos coord (by simp [CHUNK_SIZE])
  refine ⟨?_, ?_, ?_, by decide⟩
  · show coord.ediv (CHUNK_SIZE : Int) = Int.fdiv coord (CHUNK_SIZE : Int)
    rw [Int.fdiv_eq_ediv _ (by simp [CHUNK_SIZE])]
    exact rfl
  · show ((coord.emod (CHUNK_SIZE : Int)).toNat : Int) = Int.emod coord (CHUNK_SIZE : Int)
    omega
  · show (coord.emod (CHUNK_SIZE : Int)).toNat < CHUNK_SIZE
    simp only [CHUNK_SIZE] at *
    omega

/--
C7: `World::get_block_at` with `world_y` below `0` or at/above the world
height `256` returns air and leaves the world — chunk cache and dirty set —
entirely unchanged (it returns the input world itself).
-/
theorem C7_get_block_at_out_of_range (w : World) (d : Disk) (wx wy wz : Int)
    (h : wy < 0 ∨ (WORLD_HEIGHT : Int) ≤ wy) :
    w.get_block_at d wx wy wz = (BlockType.Air, w) := by
  unfold World.get_block_at
  rw [if_pos h]

theorem C7_get_block_at_out_of_range_witness :
    testWorld.get_block_at testDisk 0 (-1) 0 = (BlockType.Air, testWorld) ∧
    testWorld.get_block_at testDisk 0 256 0 = (BlockType.Air, testWorld) :=
  ⟨C7_get_block_at_out_of_range testWorld testDisk 0 (-1) 0 (Or.inl (by decide)),
    C7_get_block_at_out_of_range testWorld testDisk 0 256 0 (Or.inr (by decide))⟩

/--
C9: when the world was created without a storage root,
`World::save_dirty_chunks` empties the dirty set without writing anything to
storage (the disk state is returned unchanged and the chunk cache is
untouched), so `has_dirty_chunks` is false afterwards even though no edit was
persisted.
-/
theorem C9_save_dirty_chunks_no_dir (w : World) (d : Disk) (h : w.world_dir = none) :
    (w.save_dirty_chunks d).1.dirty_chunks = [] ∧
    (w.save_dirty_chunks d).2 = d ∧
    (w.save_dirty_chunks d).1.has_dirty_chunks = false ∧
    (w.save_dirty_chunks d).1.chunks = w.chunks := by
  unfold World.save_dirty_chunks
  by_cases he : w.dirty_chunks = []
  · rw [if_pos he]
    exact ⟨he, rfl, by simp [World.has_dirty_chunks, he], rfl⟩
  · rw [if_neg he, if_pos h]
    exact ⟨rfl, rfl, rfl, rfl⟩

/-- A world with no storage root and one pending dirty chunk coordinate. -/
def dirtyWorld : World := { testWorld with dirty_chunks := [(0, 0)] }

theorem C9_save_dirty_chunks_no_dir_witness :
    (dirtyWorld.save_dirty_chunks testDisk).1.dirty_chunks = [] ∧
    (dirtyWorld.save_dirty_chunks testDisk).2 = testDisk ∧
    (dirtyWorld.save_dirty_chunks testDisk).1.has_dirty_chunks = false ∧
    (dirtyWorld.save_dirty_chunks testDisk).1.chunks = dirtyWorld.chunks :=
  C9_save_dirty_chunks_no_dir dirtyWorld testDisk rfl

theorem split_world_coord_snd_lt (coord : Int) :
    (split_world_coord coord).2 < CHUNK_SIZE := by
  have h : (split_world_coord coord).2 = (coord % (16 : Int)).toNat := rfl
  rw [h]
  show (coord % (16 : Int)).toNat < 16
  omega

theorem not_mem_range'_zero (n : Nat) : (0 : Nat) ∉ List.range' 1 n := by
  intro hmem
  rcases List.mem_range'.mp hmem with ⟨i, _, he⟩
  omega

/--
C5: every column of a generated chunk has bedrock at `y = 0`, whatever the
column's height value, and the ore pass (whose loop starts at `y = 1`) never
touches `y = 0` of its column.
-/
theorem C5_bedrock_at_zero (noise : Noise) (chunk_x chunk_z : Int) (lx lz : Nat)
    (hx : lx < CHUNK_SIZE) (hz : lz < CHUNK_SIZE) :
    (generate_chunk noise chunk_x chunk_z).get_block lx 0 lz = BlockType.Bedrock ∧
    ∀ (c : Chunk) (h : Nat),
      (generate_ores noise c lx lz h).get_block lx 0 lz = c.get_block lx 0 lz := by
  constructor
  · rw [generate_chunk_get_block noise chunk_x chunk_z lx 0 lz hx (by decide) hz]
    unfold expected_block column_block
    rw [if_neg (not_mem_range'_zero _)]
    unfold terrain_block
    rw [if_pos rfl]
  · intro c h
    rw [get_block_generate_ores]
    rw [if_neg (fun hc => not_mem_range'_zero _ hc.2.2.1)]

theorem C5_bedrock_at_zero_witness :
    (generate_chunk constNoise 0 0).get_block 0 0 0 = BlockType.Bedrock :=
  (C5_bedrock_at_zero constNoise 0 0 0 0 (by decide) (by decide)).1

/-- A concrete noise source whose 3-D samples are all `0.9`, above every ore
threshold of the generator. -/
def constNoise9 : Noise := ⟨fun _ _ => 0, fun _ _ _ => 0.9⟩

/--
C4 (evidence): the ore threshold chain of `World::generate_ores` tests the
loosest (coal) band first, and every stricter band's guard implies the coal
guard, so the iron, gold and diamond branches are unreachable: `ore_block`
only ever yields a coal variant.  In particular, at the failing input — ore
noise `0.9` and depth `y = 10`, which satisfies the diamond band
`0.9 > 0.8 ∧ 1 < 10 < 20` claimed by the spec — the generated column holds
`DeepslateCoalOre`, not `DeepslateDiamondOre`.
-/
theorem C4_ore_bands_not_exclusive :
    (∀ (noise : Noise) (wx wz : Int) (y : Nat),
      ore_block noise wx wz y = none ∨
      ore_block noise wx wz y = some BlockType.DeepslateCoalOre ∨
      ore_block noise wx wz y = some BlockType.CoalOre) ∧
    ((0.8 : ℚ) < 0.9 ∧ 1 < 10 ∧ 10 < 20) ∧
    (generate_ores constNoise9 (Chunk.new 0 0) 0 0 30).get_block 0 10 0 =
      BlockType.DeepslateCoalOre := by
  refine ⟨?_, by norm_num, ?_⟩
  · intro noise wx wz y
    unfold ore_block
    dsimp only
    generalize noise.get3 ((wx : ℚ) * 0.1) ((y : ℚ) * 0.1) ((wz : ℚ) * 0.1) = v
    by_cases h1 : 0.6 < v ∧ 0 < y ∧ y < 128
    · rw [if_pos h1]
      by_cases hy : y < 16
      · rw [if_pos hy]; right; left; rfl
      · rw [if_neg hy]; right; right; rfl
    · rw [if_neg h1]
      by_cases h2 : 0.7 < v ∧ 0 < y ∧ y < 64
      · exact absurd ⟨by linarith [h2.1], h2.2.1, by omega⟩ h1
      · rw [if_neg h2]
        by_cases h3 : 0.75 < v ∧ 0 < y ∧ y < 32
        · exact absurd ⟨by linarith [h3.1], h3.2.1, by omega⟩ h1
        · rw [if_neg h3]
          by_cases h4 : 0.8 < v ∧ 1 < y ∧ y < 20
          · exact absurd ⟨by linarith [h4.1], by omega, by omega⟩ h1
          · rw [if_neg h4]; left; rfl
  · rw [get_block_generate_ores]
    rw [if_pos ⟨rfl, rfl, by decide, by decide, by decide, by decide⟩]
    norm_num [ore_block, constNoise9, Chunk.new]

theorem height_at_constNoise : height_at constNoise 0 0 = 82 := by
  unfold height_at sample_noise
  norm_num [constNoise, List.range_succ, WORLD_HEIGHT, min_def, max_def]
  rfl

theorem generate_chunk_constNoise_top :
    (generate_chunk constNoise 0 0).get_block 0 255 0 = BlockType.Air := by
  rw [generate_chunk_get_block constNoise 0 0 0 255 0 (by decide) (by decide) (by decide)]
  unfold expected_block
  norm_num [height_at_constNoise]
  decide

/-- `World::set_block_at` on a non-resident chunk whose storage load yields
nothing: the chunk is generated and cached, its coordinate enters the dirty
set already during the implicit `get_chunk_mut`, and when the generated block
at the target position equals the argument the write itself is skipped and
`None` is returned. -/
theorem set_block_at_generates (w : World) (d : Disk) (wx wy wz : Int) (b : BlockType)
    (hy : ¬(wy < 0 ∨ (WORLD_HEIGHT : Int) ≤ wy))
    (habs : mapFind w.chunks ((split_world_coord wx).1, (split_world_coord wz).1) = none)
    (hload : load_chunk_from_disk w d (split_world_coord wx).1 (split_world_coord wz).1 = none)
    (heq : (generate_chunk w.noise (split_world_coord wx).1 (split_world_coord wz).1).get_block
      (split_world_coord wx).2 wy.toNat (split_world_coord wz).2 = b) :
    w.set_block_at d wx wy wz b =
      (none, { w with
        chunks := (((split_world_coord wx).1, (split_world_coord wz).1),
          generate_chunk w.noise (split_world_coord wx).1 (split_world_coord wz).1) :: w.chunks,
        dirty_chunks := setInsert w.dirty_chunks
          ((split_world_coord wx).1, (split_world_coord wz).1) }) := by
  unfold World.set_block_at
  rw [if_neg hy]
  simp only
  unfold World.get_chunk
  rw [habs, hload]
  simp only
  rw [if_pos heq]

/--
C3 (counterexample): `set_block_at` with a value equal to the stored one does
not always leave the dirty set unchanged.  On a fresh world (empty cache, no
storage root, all-zero noise), setting air at `(0, 255, 0)` — where the
generated chunk already holds air — returns `None`, yet the dirty set grows
from `[]` to `[(0, 0)]`, because the implicit chunk load generated the chunk
and marked it dirty.
-/
theorem C3_set_block_at_counterexample :
    (testWorld.set_block_at testDisk 0 255 0 BlockType.Air).1 = none ∧
    testWorld.dirty_chunks = [] ∧
    (testWorld.set_block_at testDisk 0 255 0 BlockType.Air).2.dirty_chunks = [(0, 0)] := by
  have h := set_block_at_generates testWorld testDisk 0 255 0 BlockType.Air
    (by decide) rfl rfl generate_chunk_constNoise_top
  rw [h]
  exact ⟨rfl, rfl, rfl⟩

/--
C3 (amended): provided the owning chunk is already resident in the cache,
`set_block_at` with in-range `world_y` behaves as claimed: if the stored
block equals the argument it returns `None` and leaves the world — dirty set
included — unchanged; if it differs it stores the updated chunk, adds the
owning chunk coordinate to the dirty set and returns that coordinate.
-/
theorem C3_set_block_at_amended (w : World) (d : Disk) (wx wy wz : Int) (b : BlockType)
    (c : Chunk)
    (hy : ¬(wy < 0 ∨ (WORLD_HEIGHT : Int) ≤ wy))
    (hres : mapFind w.chunks ((split_world_coord wx).1, (split_world_coord wz).1) = some c) :
    (c.get_block (split_world_coord wx).2 wy.toNat (split_world_coord wz).2 = b →
      w.set_block_at d wx wy wz b = (none, w)) ∧
    (¬(c.get_block (split_world_coord wx).2 wy.toNat (split_world_coord wz).2 = b) →
      (w.set_block_at d wx wy wz b).1 =
        some ((split_world_coord wx).1, (split_world_coord wz).1) ∧
      (w.set_block_at d wx wy wz b).2.chunks =
        mapSet w.chunks ((split_world_coord wx).1, (split_world_coord wz).1)
          (c.set_block (split_world_coord wx).2 wy.toNat (split_world_coord wz).2 b) ∧
      (w.set_block_at d wx wy wz b).2.dirty_chunks =
        setInsert w.dirty_chunks ((split_world_coord wx).1, (split_world_coord wz).1) ∧
      ((split_world_coord wx).1, (split_world_coord wz).1) ∈
        (w.set_block_at d wx wy wz b).2.dirty_chunks ∧
      (c.set_block (split_world_coord wx).2 wy.toNat (split_world_coord wz).2 b).get_block
        (split_world_coord wx).2 wy.toNat (split_world_coord wz).2 = b) := by
  have hlx : (split_world_coord wx).2 < CHUNK_SIZE := split_world_coord_snd_lt wx
  have hlz : (split_world_coord wz).2 < CHUNK_SIZE := split_world_coord_snd_lt wz
  have hyn : wy.toNat < WORLD_HEIGHT := by
    simp only [WORLD_HEIGHT] at *
    omega
  unfold World.set_block_at
  rw [if_neg hy]
  simp only
  unfold World.get_chunk
  rw [hres]
  simp only
  constructor
  · intro he
    rw [if_pos he]
  · intro hne
    rw [if_neg hne]
    refine ⟨rfl, rfl, rfl, mem_setInsert _ _, ?_⟩
    rw [Chunk.get_block_set_block, if_pos ⟨rfl, rfl, rfl, hlx, hyn, hlz⟩]

/-- A world holding one resident (empty) chunk at coordinate `(0, 0)`. -/
def residentWorld : World := { testWorld with chunks := [((0, 0), Chunk.new 0 0)] }

theorem C3_set_block_at_amended_witness :
    residentWorld.set_block_at testDisk 0 5 0 BlockType.Air = (none, residentWorld) ∧
    (residentWorld.set_block_at testDisk 0 5 0 BlockType.Stone).1 = some (0, 0) ∧
    (0, 0) ∈ (residentWorld.set_block_at testDisk 0 5 0 BlockType.Stone).2.dirty_chunks := by
  refine ⟨?_, ?_, ?_⟩
  · exact (C3_set_block_at_amended residentWorld testDisk 0 5 0 BlockType.Air
      (Chunk.new 0 0) (by decide) rfl).1 rfl
  · exact ((C3_set_block_at_amended residentWorld testDisk 0 5 0 BlockType.Stone
      (Chunk.new 0 0) (by decide) rfl).2 (by decide)).1
  · exact ((C3_set_block_at_amended residentWorld testDisk 0 5 0 BlockType.Stone
      (Chunk.new 0 0) (by decide) rfl).2 (by decide)).2.2.2.1

/--
C10: `get_block_at` with in-range `world_y` is not read-only.  If the owning
chunk is not resident, the call inserts it into the cache (its coordinate is
in `get_loaded_chunks` afterwards), and when the storage load yields nothing
— no storage root, missing or corrupt file — the freshly generated chunk's
coordinate is also added to the dirty set, so a pure read makes
`has_dirty_chunks` true.
-/
theorem C10_get_block_at_loads_and_dirties (w : World) (d : Disk) (wx wy wz : Int)
    (hy : ¬(wy < 0 ∨ (WORLD_HEIGHT : Int) ≤ wy))
    (habs : mapFind w.chunks ((split_world_coord wx).1, (split_world_coord wz).1) = none) :
    ((split_world_coord wx).1, (split_world_coord wz).1) ∈
      (w.get_block_at d wx wy wz).2.get_loaded_chunks ∧
    (load_chunk_from_disk w d (split_world_coord wx).1 (split_world_coord wz).1 = none →
      ((split_world_coord wx).1, (split_world_coord wz).1) ∈
        (w.get_block_at d wx wy wz).2.dirty_chunks ∧
      (w.get_block_at d wx wy wz).2.has_dirty_chunks = true) := by
  unfold World.get_block_at
  rw [if_neg hy]
  simp only
  unfold World.get_chunk
  rw [habs]
  cases hl : load_chunk_from_disk w d (split_world_coord wx).1 (split_world_coord wz).1 with
  | some c =>
    refine ⟨?_, fun hc => absurd hc (by simp)⟩
    simp [World.get_loaded_chunks]
  | none =>
    refine ⟨by simp [World.get_loaded_chunks], fun _ => ⟨?_, ?_⟩⟩
    · exact mem_setInsert _ _
    · simp [World.has_dirty_chunks, isEmpty_setInsert]

theorem C10_get_block_at_loads_and_dirties_witness :
    ((split_world_coord 0).1, (split_world_coord 0).1) ∈
      (testWorld.get_block_at testDisk 0 50 0).2.get_loaded_chunks ∧
    ((split_world_coord 0).1, (split_world_coord 0).1) ∈
      (testWorld.get_block_at testDisk 0 50 0).2.dirty_chunks ∧
    (testWorld.get_block_at testDisk 0 50 0).2.has_dirty_chunks = true := by
  have h := C10_get_block_at_loads_and_dirties testWorld testDisk 0 50 0
    (by decide) rfl
  exact ⟨h.1, h.2 rfl⟩

/-- `BlockFace` from `src/renderer/texture.rs`. -/
inductive BlockFace where
  | Top | Bottom | North | South | East | West
  deriving DecidableEq, Repr

/-- `TextureKey` from `src/renderer/texture.rs`. -/
inductive TextureKey where
  | GrassTop | GrassSide | Dirt | Stone | Deepslate | Bedrock | Sand | Cobblestone
  | OakPlanks | OakLog | OakLeaves | Glass | CoalOre | IronOre | GoldOre | DiamondOre
  | DeepslateCoalOre | DeepslateIronOre | DeepslateGoldOre | DeepslateDiamondOre | Water
  deriving DecidableEq, Repr

/-- `AtlasUV` from `src/renderer/texture.rs` (f32 fields as exact rationals). -/
structure AtlasUV where
  u_min : ℚ
  v_min : ℚ
  u_max : ℚ
  v_max : ℚ

/-- The `TextureResolver::uv` lookup contract consumed by the mesh builder,
modelled as an abstract total resolver function (the source falls back to a
default rectangle for unmapped keys, so the lookup is total). -/
def TextureResolver : Type := TextureKey → AtlasUV

/-- `texture_key_for` from `src/renderer/texture.rs`. -/
def texture_key_for (block : BlockType) (face : BlockFace) : TextureKey :=
  match block with
  | .GrassBlock =>
    match face with
    | .Top => .GrassTop
    | .Bottom => .Dirt
    | _ => .GrassSide
  | .Dirt | .CoarseDirt | .RootedDirt | .Podzol => .Dirt
  | .Stone | .Granite | .Diorite | .Andesite => .Stone
  | .Deepslate | .Calcite | .Tuff => .Deepslate
  | .Bedrock => .Bedrock
  | .Sand | .RedSand => .Sand
  | .Cobblestone | .MossyCobblestone | .StoneBricks | .SmoothStone | .Sandstone
  | .RedSandstone | .Bricks => .Cobblestone
  | .OakPlanks | .SprucePlanks | .BirchPlanks => .OakPlanks
  | .OakLog | .SpruceLog | .BirchLog | .JungleLog | .AcaciaLog | .DarkOakLog => .OakLog
  | .OakLeaves => .OakLeaves
  | .Glass | .WhiteStainedGlass => .Glass
  | .Water => .Water
  | .CoalOre => .CoalOre
  | .IronOre => .IronOre
  | .GoldOre => .GoldOre
  | .DiamondOre => .DiamondOre
  | .DeepslateCoalOre => .DeepslateCoalOre
  | .DeepslateIronOre => .DeepslateIronOre
  | .DeepslateGoldOre => .DeepslateGoldOre
  | .DeepslateDiamondOre => .DeepslateDiamondOre
  | _ => .Stone

/-- `Vertex` from `src/renderer/renderer.rs` (f32 fields as exact rationals). -/
structure Vertex where
  position : ℚ × ℚ × ℚ
  tex_coords : ℚ × ℚ
  color : ℚ × ℚ × ℚ
  normal : ℚ × ℚ × ℚ

/-- `Renderer::face_vertices` (lines 694-733): the 4 corner offsets of each
face. -/
def face_vertices : BlockFace → List (ℚ × ℚ × ℚ)
  | .Top => [(0, 1, 0), (0, 1, 1), (1, 1, 1), (1, 1, 0)]
  | .Bottom => [(0, 0, 0), (1, 0, 0), (1, 0, 1), (0, 0, 1)]
  | .North => [(0, 0, 1), (1, 0, 1), (1, 1, 1), (0, 1, 1)]
  | .South => [(0, 0, 0), (0, 1, 0), (1, 1, 0), (1, 0, 0)]
  | .East => [(1, 0, 0), (1, 1, 0), (1, 1, 1), (1, 0, 1)]
  | .West => [(0, 0, 0), (0, 0, 1), (0, 1, 1), (0, 1, 0)]

/-- `Renderer::face_uvs` (lines 735-774): the 4 texture corners of each face,
ordered to match `face_vertices`. -/
def face_uvs (face : BlockFace) (rect : AtlasUV) : List (ℚ × ℚ) :=
  match face with
  | .Top => [(rect.u_min, rect.v_max), (rect.u_min, rect.v_min),
      (rect.u_max, rect.v_min), (rect.u_max, rect.v_max)]
  | .Bottom => [(rect.u_min, rect.v_min), (rect.u_max, rect.v_min),
      (rect.u_max, rect.v_max), (rect.u_min, rect.v_max)]
  | .North => [(rect.u_min, rect.v_max), (rect.u_max, rect.v_max),
      (rect.u_max, rect.v_min), (rect.u_min, rect.v_min)]
  | .South => [(rect.u_max, rect.v_max), (rect.u_max, rect.v_min),
      (rect.u_min, rect.v_min), (rect.u_min, rect.v_max)]
  | .East => [(rect.u_max, rect.v_max), (rect.u_max, rect.v_min),
      (rect.u_min, rect.v_min), (rect.u_min, rect.v_max)]
  | .West => [(rect.u_min, rect.v_max), (rect.u_max, rect.v_max),
      (rect.u_max, rect.v_min), (rect.u_min, rect.v_min)]

/-- `Renderer::face_normal` (lines 776-785). -/
def face_normal : BlockFace → ℚ × ℚ × ℚ
  | .Top => (0, 1, 0)
  | .Bottom => (0, -1, 0)
  | .North => (0, 0, 1)
  | .South => (0, 0, -1)
  | .East => (1, 0, 0)
  | .West => (-1, 0, 0)

/-- `Renderer::emit_face` (lines 656-692): push the 4 vertices of the face
and the 6 indices of its two triangles, based at the current vertex count. -/
def emit_face (block : BlockType) (face : BlockFace) (base_pos : ℚ × ℚ × ℚ)
    (color : ℚ × ℚ × ℚ) (texture_resolver : TextureResolver)
    (vertices : List Vertex) (indices : List Nat) : List Vertex × List Nat :=
  let rect := texture_resolver (texture_key_for block face)
  let positions := face_vertices face
  let uvs := face_uvs face rect
  let normal := face_normal face
  let start_index := vertices.length
  (vertices ++ (positions.zip uvs).map (fun pt =>
      { position := (base_pos.1 + pt.1.1, base_pos.2.1 + pt.1.2.1, base_pos.2.2 + pt.1.2.2),
        tex_coords := pt.2, color := color, normal := normal }),
    indices ++ [start_index, start_index + 1, start_index + 2,
      start_index, start_index + 2, start_index + 3])

/-- The per-voxel `faces` table of `Renderer::build_chunk_mesh`
(lines 605-635): the six `(face, visible)` pairs; a face is visible if the
neighbour is outside the chunk on that axis or the in-chunk neighbour is not
solid. -/
def face_flags (chunk : Chunk) (x y z : Nat) : List (BlockFace × Bool) :=
  [(BlockFace.Top, decide (WORLD_HEIGHT ≤ y + 1) || !(chunk.get_block x (y + 1) z).is_solid),
    (BlockFace.Bottom, decide (y = 0) || !(chunk.get_block x (y - 1) z).is_solid),
    (BlockFace.North, decide (CHUNK_SIZE ≤ z + 1) || !(chunk.get_block x y (z + 1)).is_solid),
    (BlockFace.South, decide (z = 0) || !(chunk.get_block x y (z - 1)).is_solid),
    (BlockFace.East, decide (CHUNK_SIZE ≤ x + 1) || !(chunk.get_block (x + 1) y z).is_solid),
    (BlockFace.West, decide (x = 0) || !(chunk.get_block (x - 1) y z).is_solid)]

/-- `Renderer::build_chunk_mesh` (lines 582-654): for every solid voxel emit
one face per visible direction, accumulating flat vertex and index lists. -/
def build_chunk_mesh (chunk : Chunk) (texture_resolver : TextureResolver) :
    List Vertex × List Nat :=
  let chunk_offset : ℚ × ℚ × ℚ :=
    ((chunk.x : ℚ) * (CHUNK_SIZE : ℚ), 0, (chunk.z : ℚ) * (CHUNK_SIZE : ℚ))
  (List.range CHUNK_SIZE).foldl (fun st x =>
    (List.range WORLD_HEIGHT).foldl (fun st y =>
      (List.range CHUNK_SIZE).foldl (fun st z =>
        let block := chunk.get_block x y z
        if !block.is_solid then st
        else
          let pos : ℚ × ℚ × ℚ :=
            ((x : ℚ) + chunk_offset.1, (y : ℚ) + chunk_offset.2.1, (z : ℚ) + chunk_offset.2.2)
          let color := block.get_color
          (face_flags chunk x y z).foldl (fun st fv =>
            if fv.2 then emit_face block fv.1 pos color texture_resolver st.1 st.2
            else st) st)
        st)
      st)
    ([], [])

/-- Number of visible faces of the voxel at `(x, y, z)`. -/
def num_visible_faces (chunk : Chunk) (x y z : Nat) : Nat :=
  ((face_flags chunk x y z).filter (fun fv => fv.2)).length

/-- Number of faces the voxel at `(x, y, z)` contributes to the mesh. -/
def voxel_faces (chunk : Chunk) (x y z : Nat) : Nat :=
  if (chunk.get_block x y z).is_solid then num_visible_faces chunk x y z else 0

/-- Total number of faces `build_chunk_mesh` emits for a chunk. -/
def total_faces (chunk : Chunk) : Nat :=
  ((List.range CHUNK_SIZE).map (fun x =>
    ((List.range WORLD_HEIGHT).map (fun y =>
      ((List.range CHUNK_SIZE).map (fun z => voxel_faces chunk x y z)).sum)).sum)).sum

theorem emit_face_lengths (block : BlockFace → BlockType) (face : BlockFace)
    (base_pos color : ℚ × ℚ × ℚ) (tr : TextureResolver)
    (vs : List Vertex) (is : List Nat) :
    (emit_face (block face) face base_pos color tr vs is).1.length = vs.length + 4 ∧
    (emit_face (block face) face base_pos color tr vs is).2.length = is.length + 6 := by
  unfold emit_face
  constructor
  · cases face <;> simp [face_vertices, face_uvs]
  · simp

/-- Length bookkeeping for a fold of per-item steps, each of which appends
`4 * k a` vertices and `6 * k a` indices. -/
theorem foldl_mesh_lengths {α : Type} (l : List α)
    (step : (List Vertex × List Nat) → α → (List Vertex × List Nat))
    (k : α → Nat)
    (hstep : ∀ st a, (step st a).1.length = st.1.length + 4 * k a ∧
      (step st a).2.length = st.2.length + 6 * k a) :
    ∀ st : List Vertex × List Nat,
      (l.foldl step st).1.length = st.1.length + 4 * (l.map k).sum ∧
      (l.foldl step st).2.length = st.2.length + 6 * (l.map k).sum := by
  induction l with
  | nil => intro st; simp
  | cons a t ih =>
    intro st
    rw [List.foldl_cons]
    obtain ⟨h1, h2⟩ := ih (step st a)
    obtain ⟨h3, h4⟩ := hstep st a
    refine ⟨?_, ?_⟩
    · rw [h1, h3, List.map_cons, List.sum_cons]; ring
    · rw [h2, h4, List.map_cons, List.sum_cons]; ring

theorem length_filter_eq_sum {α : Type} (l : List α) (p : α → Bool) :
    (l.filter p).length = (l.map (fun a => if p a then 1 else 0)).sum := by
  induction l with
  | nil => rfl
  | cons a t ih =>
    by_cases h : p a
    · simp [List.filter_cons, h, ih]
      omega
    · simp [List.filter_cons, h, ih]

theorem face_fold_lengths (block : BlockType) (pos color : ℚ × ℚ × ℚ)
    (tr : TextureResolver) (flags : List (BlockFace × Bool))
    (st : List Vertex × List Nat) :
    ((flags.foldl (fun st fv =>
        if fv.2 then emit_face block fv.1 pos color tr st.1 st.2 else st) st).1.length =
      st.1.length + 4 * (flags.filter (fun fv => fv.2)).length) ∧
    ((flags.foldl (fun st fv =>
        if fv.2 then emit_face block fv.1 pos color tr st.1 st.2 else st) st).2.length =
      st.2.length + 6 * (flags.filter (fun fv => fv.2)).length) := by
  rw [length_filter_eq_sum]
  exact foldl_mesh_lengths flags _ (fun fv => if fv.2 then 1 else 0)
    (fun st fv => by
      by_cases h : fv.2
      · simp only [h, if_pos]
        have := emit_face_lengths (fun _ => block) fv.1 pos color tr st.1 st.2
        simpa using this
      · simp [h])
    st

/-- Length bookkeeping for one voxel of the mesh loop. -/
theorem voxel_step_lengths (chunk : Chunk) (tr : TextureResolver)
    (x y z : Nat) (pos : ℚ × ℚ × ℚ) (st : List Vertex × List Nat) :
    ((if !(chunk.get_block x y z).is_solid then st
      else (face_flags chunk x y z).foldl (fun st fv =>
        if fv.2 then emit_face (chunk.get_block x y z) fv.1 pos
          (chunk.get_block x y z).get_color tr st.1 st.2 else st) st).1.length =
      st.1.length + 4 * voxel_faces chunk x y z) ∧
    ((if !(chunk.get_block x y z).is_solid then st
      else (face_flags chunk x y z).foldl (fun st fv =>
        if fv.2 then emit_face (chunk.get_block x y z) fv.1 pos
          (chunk.get_block x y z).get_color tr st.1 st.2 else st) st).2.length =
      st.2.length + 6 * voxel_faces chunk x y z) := by
  by_cases hs : (chunk.get_block x y z).is_solid
  · have hns : (!(chunk.get_block x y z).is_solid) = false := by simp [hs]
    have hv : voxel_faces chunk x y z = num_visible_faces chunk x y z := by
      unfold voxel_faces
      rw [if_pos hs]
    rw [hns, hv, if_neg (by decide : ¬(false = true))]
    exact face_fold_lengths _ _ _ tr _ st
  · have hns : (!(chunk.get_block x y z).is_solid) = true := by simp [hs]
    have hv : voxel_faces chunk x y z = 0 := by
      unfold voxel_faces
      rw [if_neg hs]
    rw [hns, hv, if_pos rfl]
    simp

/-- `build_chunk_mesh` emits exactly 4 vertices and 6 indices per counted
face: its outputs have lengths `4 * total_faces` and `6 * total_faces`. -/
theorem build_chunk_mesh_counts (chunk : Chunk) (tr : TextureResolver) :
    (build_chunk_mesh chunk tr).1.length = 4 * total_faces chunk ∧
    (build_chunk_mesh chunk tr).2.length = 6 * total_faces chunk := by
  have h := foldl_mesh_lengths (List.range CHUNK_SIZE)
    (fun st x =>
      (List.range WORLD_HEIGHT).foldl (fun st y =>
        (List.range CHUNK_SIZE).foldl (fun st z =>
          let block := chunk.get_block x y z
          if !block.is_solid then st
          else
            let pos : ℚ × ℚ × ℚ :=
              ((x : ℚ) + (chunk.x : ℚ) * (CHUNK_SIZE : ℚ), (y : ℚ) + 0,
                (z : ℚ) + (chunk.z : ℚ) * (CHUNK_SIZE : ℚ))
            let color := block.get_color
            (face_flags chunk x y z).foldl (fun st fv =>
              if fv.2 then emit_face block fv.1 pos color tr st.1 st.2
              else st) st) st) st)
    (fun x => ((List.range WORLD_HEIGHT).map (fun y =>
      ((List.range CHUNK_SIZE).map (fun z => voxel_faces chunk x y z)).sum)).sum)
    (fun st x =>
      foldl_mesh_lengths (List.range WORLD_HEIGHT) _
        (fun y => ((List.range CHUNK_SIZE).map (fun z => voxel_faces chunk x y z)).sum)
        (fun st y =>
          foldl_mesh_lengths (List.range CHUNK_SIZE) _
            (fun z => voxel_faces chunk x y z)
            (fun st z => voxel_step_lengths chunk tr x y z
              ((x : ℚ) + (chunk.x : ℚ) * (CHUNK_SIZE : ℚ), (y : ℚ) + 0,
                (z : ℚ) + (chunk.z : ℚ) * (CHUNK_SIZE : ℚ)) st)
            st)
        st)
    ([], [])
  simpa [build_chunk_mesh, total_faces] using h

theorem sum_range_map_zero (n : Nat) (f : Nat → Nat) (h : ∀ j, j < n → f j = 0) :
    ((List.range n).map f).sum = 0 := by
  induction n with
  | zero => rfl
  | succ m ih =>
    rw [List.range_succ, List.map_append, List.sum_append,
      ih (fun j hj => h j (by omega))]
    simp [h m (by omega)]

theorem sum_range_map_eq_single (n i : Nat) (f : Nat → Nat) (hi : i < n)
    (h0 : ∀ j, j < n → j ≠ i → f j = 0) :
    ((List.range n).map f).sum = f i := by
  induction n with
  | zero => omega
  | succ m ih =>
    rw [List.range_succ, List.map_append, List.sum_append]
    by_cases him : i = m
    · subst him
      rw [sum_range_map_zero _ _ (fun j hj => h0 j (by omega) (by omega))]
      simp
    · rw [ih (by omega) (fun j hj hne => h0 j (by omega) hne)]
      simp [h0 m (by omega) (fun he => him he.symm)]

/-- A chunk that is air everywhere except for one solid voxel at an interior
position contributes exactly 6 faces in total. -/
theorem single_voxel_total_faces (c : Chunk) (x0 y0 z0 : Nat) (b : BlockType)
    (hb : b.is_solid = true)
    (hx1 : 1 ≤ x0) (hx2 : x0 ≤ 14) (hy1 : 1 ≤ y0) (hy2 : y0 ≤ 254)
    (hz1 : 1 ≤ z0) (hz2 : z0 ≤ 14)
    (hcenter : c.get_block x0 y0 z0 = b)
    (hair : ∀ x y z : Nat, ¬(x = x0 ∧ y = y0 ∧ z = z0) →
      c.get_block x y z = BlockType.Air) :
    total_faces c = 6 := by
  have hx0lt : x0 < CHUNK_SIZE := by simp only [CHUNK_SIZE]; omega
  have hy0lt : y0 < WORLD_HEIGHT := by simp only [WORLD_HEIGHT]; omega
  have hz0lt : z0 < CHUNK_SIZE := by simp only [CHUNK_SIZE]; omega
  have hvox0 : ∀ x y z : Nat, ¬(x = x0 ∧ y = y0 ∧ z = z0) →
      voxel_faces c x y z = 0 := by
    intro x y z hne
    unfold voxel_faces
    rw [hair x y z hne]
    rfl
  have hvox6 : voxel_faces c x0 y0 z0 = 6 := by
    unfold voxel_faces
    rw [hcenter, if_pos hb]
    unfold num_visible_faces face_flags
    rw [hair x0 (y0 + 1) z0 (by omega), hair x0 (y0 - 1) z0 (by omega),
      hair x0 y0 (z0 + 1) (by omega), hair x0 y0 (z0 - 1) (by omega),
      hair (x0 + 1) y0 z0 (by omega), hair (x0 - 1) y0 z0 (by omega)]
    simp [BlockType.is_solid]
  have hzsum0 : ∀ x y : Nat, ¬(x = x0 ∧ y = y0) →
      ((List.range CHUNK_SIZE).map (fun z => voxel_faces c x y z)).sum = 0 :=
    fun x y hne => sum_range_map_zero _ _
      (fun j _ => hvox0 x y j (fun hc => hne ⟨hc.1, hc.2.1⟩))
  have hzsum1 : ((List.range CHUNK_SIZE).map
      (fun z => voxel_faces c x0 y0 z)).sum = 6 := by
    rw [sum_range_map_eq_single CHUNK_SIZE z0 _ hz0lt
      (fun j _ hne => hvox0 x0 y0 j (fun hc => hne hc.2.2))]
    exact hvox6
  have hysum0 : ∀ x : Nat, ¬(x = x0) →
      ((List.range WORLD_HEIGHT).map (fun y => ((List.range CHUNK_SIZE).map
        (fun z => voxel_faces c x y z)).sum)).sum = 0 :=
    fun x hne => sum_range_map_zero _ _ (fun j _ => hzsum0 x j (fun hc => hne hc.1))
  have hysum1 : ((List.range WORLD_HEIGHT).map (fun y => ((List.range CHUNK_SIZE).map
      (fun z => voxel_faces c x0 y z)).sum)).sum = 6 := by
    rw [sum_range_map_eq_single WORLD_HEIGHT y0 _ hy0lt
      (fun j _ hne => hzsum0 x0 j (fun hc => hne hc.2))]
    exact hzsum1
  unfold total_faces
  rw [sum_range_map_eq_single CHUNK_SIZE x0 _ hx0lt (fun j _ hne => hysum0 j hne)]
  exact hysum1

/--
C6: for every chunk containing exactly one solid voxel, at an interior
position with every other voxel air — so its six in-chunk neighbours exist
and are non-solid — `build_chunk_mesh` emits exactly 6 faces: 24 vertices and
36 indices, 4 vertices and 6 indices per face; and a solid voxel whose six
in-chunk neighbours are all solid contributes zero faces.
-/
theorem C6_mesh_single_voxel_faces (c : Chunk) (x0 y0 z0 : Nat) (b : BlockType)
    (tr : TextureResolver) (hb : b.is_solid = true)
    (hx1 : 1 ≤ x0) (hx2 : x0 ≤ 14) (hy1 : 1 ≤ y0) (hy2 : y0 ≤ 254)
    (hz1 : 1 ≤ z0) (hz2 : z0 ≤ 14)
    (hcenter : c.get_block x0 y0 z0 = b)
    (hair : ∀ x y z : Nat, ¬(x = x0 ∧ y = y0 ∧ z = z0) →
      c.get_block x y z = BlockType.Air) :
    ((build_chunk_mesh c tr).1.length = 24 ∧
      (build_chunk_mesh c tr).2.length = 36 ∧
      total_faces c = 6) ∧
    (∀ (chunk : Chunk) (x y z : Nat),
      1 ≤ x → x ≤ 14 → 1 ≤ y → y ≤ 254 → 1 ≤ z → z ≤ 14 →
      (chunk.get_block x y z).is_solid = true →
      (chunk.get_block x (y + 1) z).is_solid = true →
      (chunk.get_block x (y - 1) z).is_solid = true →
      (chunk.get_block x y (z + 1)).is_solid = true →
      (chunk.get_block x y (z - 1)).is_solid = true →
      (chunk.get_block (x + 1) y z).is_solid = true →
      (chunk.get_block (x - 1) y z).is_solid = true →
      voxel_faces chunk x y z = 0) := by
  constructor
  · have ht := single_voxel_total_faces c x0 y0 z0 b hb hx1 hx2 hy1 hy2 hz1 hz2
      hcenter hair
    have hc := build_chunk_mesh_counts c tr
    rw [ht] at hc
    exact ⟨hc.1, hc.2, ht⟩
  · intro chunk x y z hxa hxb hya hyb hza hzb hsol hnt hnb hnn hns hne hnw
    unfold voxel_faces
    rw [if_pos hsol]
    unfold num_visible_faces face_flags
    rw [hnt, hnb, hnn, hns, hne, hnw,
      decide_eq_false (by simp only [WORLD_HEIGHT]; omega : ¬(WORLD_HEIGHT ≤ y + 1)),
      decide_eq_false (by omega : ¬(y = 0)),
      decide_eq_false (by simp only [CHUNK_SIZE]; omega : ¬(CHUNK_SIZE ≤ z + 1)),
      decide_eq_false (by omega : ¬(z = 0)),
      decide_eq_false (by simp only [CHUNK_SIZE]; omega : ¬(CHUNK_SIZE ≤ x + 1)),
      decide_eq_false (by omega : ¬(x = 0))]
    rfl

/-- A resolver assigning every key the unit texture rectangle, used to
instantiate universally quantified theorems. -/
def testResolver : TextureResolver := fun _ => ⟨0, 0, 1, 1⟩

/-- A chunk with a solid voxel at `(8, 10, 8)` and solid voxels on all six of
its neighbours. -/
def enclosedChunk : Chunk :=
  ((((((((Chunk.new 0 0).set_block 8 10 8 BlockType.Stone).set_block 8 11 8
    BlockType.Stone).set_block 8 9 8 BlockType.Stone).set_block 8 10 9
    BlockType.Stone).set_block 8 10 7 BlockType.Stone).set_block 9 10 8
    BlockType.Stone).set_block 7 10 8 BlockType.Stone)

theorem C6_mesh_single_voxel_faces_witness :
    ((build_chunk_mesh ((Chunk.new 0 0).set_block 8 10 8 BlockType.Stone)
        testResolver).1.length = 24 ∧
      (build_chunk_mesh ((Chunk.new 0 0).set_block 8 10 8 BlockType.Stone)
        testResolver).2.length = 36 ∧
      total_faces ((Chunk.new 0 0).set_block 8 10 8 BlockType.Stone) = 6) ∧
    voxel_faces enclosedChunk 8 10 8 = 0 :=
  ⟨(C6_mesh_single_voxel_faces ((Chunk.new 0 0).set_block 8 10 8 BlockType.Stone)
      8 10 8 BlockType.Stone testResolver (by decide)
      (by decide) (by decide) (by decide) (by decide) (by decide) (by decide)
      (by rw [Chunk.get_block_set_block, if_pos (by decide)])
      (fun x y z hne => by
        rw [Chunk.get_block_set_block,
          if_neg (fun hc => hne ⟨hc.1, hc.2.1, hc.2.2.1⟩), Chunk.get_block_new])).1,
    (C6_mesh_single_voxel_faces ((Chunk.new 0 0).set_block 8 10 8 BlockType.Stone)
      8 10 8 BlockType.Stone testResolver (by decide)
      (by decide) (by decide) (by decide) (by decide) (by decide) (by decide)
      (by rw [Chunk.get_block_set_block, if_pos (by decide)])
      (fun x y z hne => by
        rw [Chunk.get_block_set_block,
          if_neg (fun hc => hne ⟨hc.1, hc.2.1, hc.2.2.1⟩), Chunk.get_block_new])).2
      enclosedChunk 8 10 8 (by decide) (by decide) (by decide) (by decide)
      (by decide) (by decide) (by decide) (by decide) (by decide) (by decide)
      (by decide) (by decide) (by decide)⟩

end Mc
